import Mathlib

/-!
Verification development for the pytesmo temporal collocation and
inter-comparison core as designed in the specification, together with the
packaging script `setup.py` that this repository ships.

The repository's source tree contains only `setup.py`; the core components
(TimeSeries, TemporalMatcher, Scaler, MetricsEngine, ValidationRun) are
described in the specification but their code is not present, so they are
modelled here from the specification.  Timestamps are embedded as integers,
values as rational numbers (exact arithmetic in place of IEEE floats).
-/

namespace Pytesmo

/-- Modelled from the spec: the error taxonomy of section 7 — the TimeSeries,
TemporalMatcher, Scaler and MetricsEngine code is missing from the source
tree, only `setup.py` is present. -/
inductive VError where
  | malformedSeries
  | emptyOverlap
  | insufficientData
  | degenerateInput
deriving DecidableEq, Repr

/-- Modelled from the spec: quality flag of a TimeSeries record (section 3). -/
inductive Flag where
  | valid
  | missing
  | questionable
deriving DecidableEq, Repr

/-- Modelled from the spec: one `(timestamp, value, flag)` record of a
TimeSeries (section 3).  Timestamps are instants embedded as integers. -/
structure Record where
  t : Int
  v : Rat
  flag : Flag
deriving DecidableEq, Repr

/-- Boolean check that a list of timestamps is strictly increasing. -/
def strictlyIncreasingB : List Int → Bool
  | [] => true
  | [_] => true
  | a :: b :: rest => decide (a < b) && strictlyIncreasingB (b :: rest)

/-- Modelled from the spec: the TimeSeries constructor (section 4.1) — missing
from the source tree.  It fails with `MalformedSeriesError` when timestamps
are not strictly increasing or contain duplicates, and otherwise returns the
records unchanged (no silent sorting or de-duplication). -/
def mkTimeSeries (recs : List Record) : Except VError (List Record) :=
  if strictlyIncreasingB (recs.map (·.t)) then .ok recs else .error .malformedSeries

/-- A candidate record is inside the ± tolerance window around `t`. -/
def withinTol (w : Nat) (t : Int) (r : Record) : Bool :=
  (r.t - t).natAbs ≤ w

/-- Candidate `a` is strictly preferred to candidate `b` for reference time
`t`: strictly smaller absolute time difference, or equal difference and an
earlier timestamp. -/
def closer (t : Int) (a b : Record) : Bool :=
  decide ((a.t - t).natAbs < (b.t - t).natAbs) ||
    (decide ((a.t - t).natAbs = (b.t - t).natAbs) && decide (a.t < b.t))

/-- Modelled from the spec: nearest-neighbour lookup within a tolerance
(sections 4.1 and 4.2) — missing from the source tree.  Among the records
inside the ± tolerance window it selects the one with smallest absolute time
difference, breaking exact ties by the earlier timestamp. -/
def nearestWithin (w : Nat) (t : Int) : List Record → Option Record
  | [] => none
  | r :: rest =>
    match nearestWithin w t rest with
    | none => if withinTol w t r then some r else none
    | some b =>
      if withinTol w t r then
        if closer t b r then some b else some r
      else some b

/-- Modelled from the spec: a MatchedRecord (section 3) — one row with the
reference timestamp, the reference value and one nullable value per
non-reference source. -/
structure MatchedRecord where
  refT : Int
  refV : Rat
  others : List (Option Rat)
deriving DecidableEq, Repr

/-- Modelled from the spec: a MatchedTable (section 3) — the ordered rows
produced by one match call, together with the fixed number of contributing
sources of the run. -/
structure MatchedTable where
  nSources : Nat
  rows : List MatchedRecord
deriving DecidableEq, Repr

/-- Modelled from the spec: the TemporalMatcher algorithm (section 4.2) —
missing from the source tree.  It iterates the reference timestamps in order
and performs a nearest-neighbour lookup in every other series; a reference
timestamp with no candidate yields a null value, never a dropped row. -/
def buildTable (w : Nat) (ref : List Record) (others : List (List Record)) :
    MatchedTable :=
  ⟨1 + others.length,
    ref.map fun r => ⟨r.t, r.v, others.map fun s => (nearestWithin w r.t s).map (·.v)⟩⟩

/-- Modelled from the spec: the TemporalMatcher entry point (section 4.2) —
missing from the source tree.  It fails with `EmptyOverlapError` when zero
records are produced. -/
def temporalMatch (w : Nat) (ref : List Record) (others : List (List Record)) :
    Except VError MatchedTable :=
  let table := buildTable w ref others
  if table.rows.isEmpty then .error .emptyOverlap else .ok table

/-- Arithmetic mean of a list of rationals (0 on the empty list). -/
def mean (l : List Rat) : Rat :=
  l.sum / (l.length : Rat)

/-- Population variance: mean of squares minus square of the mean. -/
def variance (l : List Rat) : Rat :=
  mean (l.map fun x => x * x) - mean l * mean l

/-- Population covariance of a list of pairs. -/
def covariance (ps : List (Rat × Rat)) : Rat :=
  mean (ps.map fun p => p.1 * p.2) - mean (ps.map (·.1)) * mean (ps.map (·.2))

/-- The paired non-null samples `(source value, reference value)` of the
`j`-th non-reference source of a MatchedTable: rows where that source has a
null value contribute no pair. -/
def pairedSamples (t : MatchedTable) (j : Nat) : List (Rat × Rat) :=
  t.rows.filterMap fun r => (r.others.getD j none).map fun v => (v, r.refV)

/-- Modelled from the spec: the selectable scaling methods (section 4.3) —
missing from the source tree. -/
inductive ScalingMethod where
  | linearRegression
  | meanStd
  | cdfMatch
deriving DecidableEq, Repr

/-- Fitted coefficients of the linear-regression scaling method. -/
structure LinearModel where
  slope : Rat
  intercept : Rat
deriving DecidableEq, Repr

/-- Insert a rational into a sorted list, preserving order. -/
def insertRat (x : Rat) : List Rat → List Rat
  | [] => [x]
  | y :: ys => if x ≤ y then x :: y :: ys else y :: insertRat x ys

/-- Insertion sort of a list of rationals, used by the CDF-matching method to
rank the empirical distributions. -/
def sortRat (l : List Rat) : List Rat :=
  l.foldr insertRat []

/-- Modelled from the spec: a ScalingModel (section 3) — method identifier
plus fitted coefficients, immutable once fitted.  The mean-std method stores
the fitted means and variances; the CDF-matching method stores the
rank-paired empirical distributions. -/
inductive ScalingModel where
  | linear (m : LinearModel)
  | meanStd (srcMean srcVar refMean refVar : Rat)
  | cdfMatch (tbl : List (Rat × Rat))
deriving DecidableEq, Repr

/-- Modelled from the spec: the coefficient computation of each scaling
method (section 4.3) — missing from the source tree.  Linear regression is a
least-squares fit of the reference on the source. -/
def fitCoeffs : ScalingMethod → List (Rat × Rat) → ScalingModel
  | .linearRegression, ps =>
    let slope := covariance ps / variance (ps.map (·.1))
    .linear ⟨slope, mean (ps.map (·.2)) - slope * mean (ps.map (·.1))⟩
  | .meanStd, ps =>
    .meanStd (mean (ps.map (·.1))) (variance (ps.map (·.1)))
      (mean (ps.map (·.2))) (variance (ps.map (·.2)))
  | .cdfMatch, ps =>
    .cdfMatch ((sortRat (ps.map (·.1))).zip (sortRat (ps.map (·.2))))

/-- Modelled from the spec: Scaler fitting (section 4.3) — missing from the
source tree.  Every method fails with `InsufficientDataError` when fewer than
the method-specific minimum count `minN` of paired samples are available, and
with `DegenerateInputError` when the reference series has zero variance. -/
def fitScaler (method : ScalingMethod) (minN : Nat) (ps : List (Rat × Rat)) :
    Except VError ScalingModel :=
  if ps.length < minN then .error .insufficientData
  else if variance (ps.map (·.2)) = 0 then .error .degenerateInput
  else .ok (fitCoeffs method ps)

/-- Modelled from the spec: applying a fitted linear scaling model to one
value (section 4.3) — a pure function of the fitted parameters. -/
def applyLinear (m : LinearModel) (v : Rat) : Rat :=
  m.slope * v + m.intercept

/-- Modelled from the spec: applying a fitted linear scaling model to a
nullable value — nulls pass through unchanged. -/
def applyLinearOpt (m : LinearModel) (o : Option Rat) : Option Rat :=
  o.map (applyLinear m)

/-- Modelled from the spec: MetricResult status (section 3). -/
inductive MStatus where
  | ok
  | insufficientData
  | degenerate
deriving DecidableEq, Repr

/-- Modelled from the spec: a MetricResult (section 3) — a mapping from
metric name to value, the count of samples used and a status. -/
structure MetricResult where
  values : List (String × Rat)
  nSamples : Nat
  status : MStatus
deriving DecidableEq, Repr

/-- Bias: mean of (source − reference). -/
def bias (ps : List (Rat × Rat)) : Rat :=
  mean (ps.map fun p => p.1 - p.2)

/-- Root-mean-square difference: square root of the mean squared
(source − reference) difference. -/
def rmsd (ps : List (Rat × Rat)) : Rat :=
  Rat.sqrt (mean (ps.map fun p => (p.1 - p.2) * (p.1 - p.2)))

/-- Pearson correlation coefficient of the paired samples. -/
def pearson (ps : List (Rat × Rat)) : Rat :=
  covariance ps / Rat.sqrt (variance (ps.map (·.1)) * variance (ps.map (·.2)))

/-- Modelled from the spec: the pairwise MetricsEngine (section 4.4) —
missing from the source tree.  It operates on the rows where both sources
have a non-null value and fails with `InsufficientDataError` below the
minimum sample count. -/
def pairMetrics (minN : Nat) (t : MatchedTable) : Except VError MetricResult :=
  if t.nSources ≠ 2 then .error .insufficientData
  else
    let ps := pairedSamples t 0
    if ps.length < minN then .error .insufficientData
    else
      .ok ⟨[("correlation", pearson ps), ("bias", bias ps), ("rmsd", rmsd ps)],
        ps.length, .ok⟩

/-- The complete rows of a three-source MatchedTable, as value triples. -/
def completeTriples (t : MatchedTable) : List (Rat × Rat × Rat) :=
  t.rows.filterMap fun r =>
    match r.others with
    | [some y, some z] => some (r.refV, y, z)
    | _ => none

/-- Modelled from the spec: the triple-collocation error variances of the
three sources (section 4.4), solved from the pairwise covariances under the
assumption of independent errors and a common linearly-related signal. -/
def tcErrVars (tr : List (Rat × Rat × Rat)) : Rat × Rat × Rat :=
  let xs := tr.map (·.1)
  let ys := tr.map (·.2.1)
  let zs := tr.map (·.2.2)
  let cxy := covariance (xs.zip ys)
  let cxz := covariance (xs.zip zs)
  let cyz := covariance (ys.zip zs)
  (variance xs - cxy * cxz / cyz,
   variance ys - cxy * cyz / cxz,
   variance zs - cxz * cyz / cxy)

/-- Modelled from the spec: the triple-collocation metric (section 4.4) —
missing from the source tree.  It requires exactly three sources and at
least `minN` complete rows, failing with `InsufficientDataError` otherwise;
a negative computed error variance yields a `degenerate` status, not an
error. -/
def tripleCollocation (minN : Nat) (t : MatchedTable) : Except VError MetricResult :=
  if t.nSources ≠ 3 then .error .insufficientData
  else
    let tr := completeTriples t
    if tr.length < minN then .error .insufficientData
    else
      let ev := tcErrVars tr
      let st := if ev.1 < 0 ∨ ev.2.1 < 0 ∨ ev.2.2 < 0 then
          MStatus.degenerate
        else MStatus.ok
      .ok ⟨[("tc_error_var_A", ev.1), ("tc_error_var_B", ev.2.1),
            ("tc_error_var_C", ev.2.2)], tr.length, st⟩

/-- Rescale the `j`-th non-reference column of a MatchedTable with a fitted
linear scaling model, fitting on the paired non-null samples of that
column. -/
def scaleColumn (minN : Nat) (t : MatchedTable) (j : Nat) :
    Except VError MatchedTable :=
  match fitScaler .linearRegression minN (pairedSamples t j) with
  | .error e => .error e
  | .ok (.linear m) =>
    .ok ⟨t.nSources,
      t.rows.map fun r =>
        ⟨r.refT, r.refV, r.others.set j (applyLinearOpt m (r.others.getD j none))⟩⟩
  | .ok _ => .ok t

/-- Rescale the listed non-reference columns in turn, stopping at the first
failing fit. -/
def scaleCols (minN : Nat) : List Nat → MatchedTable → Except VError MatchedTable
  | [], t => .ok t
  | j :: js, t =>
    match scaleColumn minN t j with
    | .error e => .error e
    | .ok t1 => scaleCols minN js t1

/-- Modelled from the spec: the optional Scaler stage of a validation run
(sections 4.3 and 4.5) — each non-reference column is rescaled onto the
reference. -/
def scaleAll (minN : Nat) (t : MatchedTable) : Except VError MatchedTable :=
  scaleCols minN (List.range (t.nSources - 1)) t

/-- Modelled from the spec: one source combination of a ValidationRun
(section 4.5) — identifying key, tolerance, reference series, other series,
the scaling on/off switch and the minimum sample count of the
configuration. -/
structure Combination where
  key : String
  w : Nat
  ref : List Record
  others : List (List Record)
  scaling : Bool
  minN : Nat

/-- Modelled from the spec: the per-combination pipeline of a ValidationRun
(section 4.5) — TemporalMatcher, then the optional Scaler, then the
MetricsEngine (triple collocation for three sources, pairwise metrics
otherwise). -/
def runOne (c : Combination) : Except VError MetricResult :=
  match temporalMatch c.w c.ref c.others with
  | .error e => .error e
  | .ok table =>
    match (if c.scaling then scaleAll c.minN table else .ok table) with
    | .error e => .error e
    | .ok table2 =>
      if table2.nSources = 3 then tripleCollocation c.minN table2
      else pairMetrics c.minN table2

/-- Modelled from the spec: a failed-combination record (section 4.5) —
the identifying key plus the failure reason. -/
structure Failure where
  key : String
  reason : VError
deriving DecidableEq, Repr

/-- The aggregate entry of one combination: either a MetricResult or a
failure record. -/
def runEntry (c : Combination) : MetricResult ⊕ Failure :=
  match runOne c with
  | .ok r => .inl r
  | .error e => .inr ⟨c.key, e⟩

/-- Modelled from the spec: the ValidationRun orchestrator (section 4.5) —
missing from the source tree.  It maps every combination key to either a
MetricResult or a failure record; per-combination errors are caught and
recorded, never propagated, so the run always returns a full report. -/
def validationRun (cs : List Combination) : List (String × (MetricResult ⊕ Failure)) :=
  cs.map fun c => (c.key, runEntry c)

/-- One step of the custom `sdist` command of `setup.py`. -/
inductive SdistStep where
  | cythonize (path : String)
  | baseSdistRun
deriving DecidableEq, Repr

/-- The `run` method of the custom `sdist` command class in `setup.py`:
it cythonizes `pytesmo/time_series/mycythonmodule.pyx` and then invokes the
base distutils `sdist.run`. -/
def sdistRun : List SdistStep :=
  [SdistStep.cythonize "pytesmo/time_series/mycythonmodule.pyx",
   SdistStep.baseSdistRun]

theorem strictlyIncreasingB_iff :
    ∀ l : List Int, strictlyIncreasingB l = true ↔ List.Chain' (· < ·) l
  | [] => by simp [strictlyIncreasingB]
  | [_] => by simp [strictlyIncreasingB]
  | a :: b :: rest => by
    rw [strictlyIncreasingB, List.chain'_cons, Bool.and_eq_true, decide_eq_true_eq,
      strictlyIncreasingB_iff (b :: rest)]

/-- C2: the TimeSeries constructor succeeds, returning the records unchanged,
exactly when the timestamps are strictly increasing; otherwise it fails with
`MalformedSeriesError`; strictly increasing timestamps are duplicate-free. -/
theorem timeSeries_ctor_iff_strictly_increasing (recs : List Record) :
    (mkTimeSeries recs = .ok recs ↔ List.Chain' (· < ·) (recs.map (·.t))) ∧
    (¬ List.Chain' (· < ·) (recs.map (·.t)) →
      mkTimeSeries recs = .error .malformedSeries) ∧
    (List.Chain' (· < ·) (recs.map (·.t)) → (recs.map (·.t)).Nodup) := by
  refine ⟨?_, ?_, ?_⟩
  · rw [mkTimeSeries]
    split
    · next h => simp [(strictlyIncreasingB_iff _).mp h]
    · next h =>
      simp only [reduceCtorEq, false_iff]
      exact fun hc => h ((strictlyIncreasingB_iff _).mpr hc)
  · intro hc
    rw [mkTimeSeries]
    split
    · next h => exact absurd ((strictlyIncreasingB_iff _).mp h) hc
    · rfl
  · intro hc
    exact (List.chain'_iff_pairwise.mp hc).imp ne_of_lt

theorem timeSeries_ctor_witness :
    mkTimeSeries [⟨0, 1, .valid⟩, ⟨2, 5, .valid⟩] =
      .ok [⟨0, 1, .valid⟩, ⟨2, 5, .valid⟩] ∧
    mkTimeSeries [⟨2, 1, .valid⟩, ⟨2, 5, .valid⟩] = .error .malformedSeries ∧
    mkTimeSeries [⟨3, 1, .valid⟩, ⟨2, 5, .valid⟩] = .error .malformedSeries :=
  ⟨(timeSeries_ctor_iff_strictly_increasing [⟨0, 1, .valid⟩, ⟨2, 5, .valid⟩]).1.mpr
      (by rw [← strictlyIncreasingB_iff]; decide),
   (timeSeries_ctor_iff_strictly_increasing [⟨2, 1, .valid⟩, ⟨2, 5, .valid⟩]).2.1
      (by rw [← strictlyIncreasingB_iff]; decide),
   (timeSeries_ctor_iff_strictly_increasing [⟨3, 1, .valid⟩, ⟨2, 5, .valid⟩]).2.1
      (by rw [← strictlyIncreasingB_iff]; decide)⟩

/-- C10: the custom sdist command of `setup.py` runs the cythonization of
`pytesmo/time_series/mycythonmodule.pyx` strictly before the base distutils
sdist run. -/
theorem sdist_cythonize_before_base_run :
    SdistStep.cythonize "pytesmo/time_series/mycythonmodule.pyx" ∈ sdistRun ∧
    SdistStep.baseSdistRun ∈ sdistRun ∧
    sdistRun.indexOf (SdistStep.cythonize "pytesmo/time_series/mycythonmodule.pyx") <
      sdistRun.indexOf SdistStep.baseSdistRun := by
  refine ⟨?_, ?_, ?_⟩ <;> simp [sdistRun, List.indexOf_cons]

theorem closer_neg_trans {t : Int} {a b c : Record} (h1 : closer t a b = false)
    (h2 : closer t b c = false) : closer t a c = false := by
  simp only [closer, Bool.or_eq_false_iff, Bool.and_eq_false_iff,
    decide_eq_false_iff_not, not_lt] at *
  omega


theorem closer_asymm {t : Int} {a b : Record} (h : closer t a b = true) :
    closer t b a = false := by
  simp only [closer, Bool.or_eq_true, Bool.and_eq_true, decide_eq_true_eq] at h
  simp only [closer, Bool.or_eq_false_iff, Bool.and_eq_false_iff,
    decide_eq_false_iff_not, not_lt]
  omega

theorem closer_self (t : Int) (r : Record) : closer t r r = false := by
  simp only [closer, Bool.or_eq_false_iff, Bool.and_eq_false_iff,
    decide_eq_false_iff_not, not_lt]
  omega

theorem nearestWithin_mem_within (w : Nat) (t : Int) :
    ∀ (l : List Record) (m : Record), nearestWithin w t l = some m →
      m ∈ l ∧ withinTol w t m = true
  | [], m, h => by simp [nearestWithin] at h
  | r :: rest, m, h => by
    rw [nearestWithin] at h
    cases h' : nearestWithin w t rest with
    | none =>
      rw [h'] at h
      by_cases hw : withinTol w t r
      · simp [hw] at h
        subst h
        exact ⟨List.mem_cons_self r rest, hw⟩
      · simp [hw] at h
    | some b =>
      rw [h'] at h
      have ih := nearestWithin_mem_within w t rest b h'
      by_cases hw : withinTol w t r
      · by_cases hcl : closer t b r
        · simp [hw, hcl] at h
          subst h
          exact ⟨List.mem_cons_of_mem r ih.1, ih.2⟩
        · simp [hw, hcl] at h
          subst h
          exact ⟨List.mem_cons_self r rest, hw⟩
      · simp [hw] at h
        subst h
        exact ⟨List.mem_cons_of_mem r ih.1, ih.2⟩

theorem nearestWithin_isSome (w : Nat) (t : Int) :
    ∀ (l : List Record) (c : Record), c ∈ l → withinTol w t c = true →
      (nearestWithin w t l).isSome = true
  | [], c, hc, _ => by simp at hc
  | r :: rest, c, hc, hcw => by
    rw [nearestWithin]
    cases h' : nearestWithin w t rest with
    | none =>
      rcases List.mem_cons.mp hc with hc | hc
      · subst hc
        simp [hcw]
      · have hs := nearestWithin_isSome w t rest c hc hcw
        rw [h'] at hs
        simp at hs
    | some b =>
      by_cases hw : withinTol w t r
      · by_cases hcl : closer t b r <;> simp [hw, hcl]
      · simp [hw]

theorem nearestWithin_not_beaten (w : Nat) (t : Int) :
    ∀ (l : List Record) (m : Record), nearestWithin w t l = some m →
      ∀ c ∈ l, withinTol w t c = true → closer t c m = false
  | [], m, h => by simp [nearestWithin] at h
  | r :: rest, m, h => by
    intro c hc hcw
    rw [nearestWithin] at h
    cases h' : nearestWithin w t rest with
    | none =>
      rw [h'] at h
      by_cases hw : withinTol w t r
      · simp [hw] at h
        subst h
        rcases List.mem_cons.mp hc with hc | hc
        · subst hc
          exact closer_self t _
        · have hs := nearestWithin_isSome w t rest c hc hcw
          rw [h'] at hs
          simp at hs
      · simp [hw] at h
    | some b =>
      rw [h'] at h
      have ihb := nearestWithin_not_beaten w t rest b h'
      by_cases hw : withinTol w t r
      · by_cases hcl : closer t b r
        · simp [hw, hcl] at h
          subst h
          rcases List.mem_cons.mp hc with hc | hc
          · subst hc
            exact closer_asymm hcl
          · exact ihb c hc hcw
        · simp [hw, hcl] at h
          subst h
          rcases List.mem_cons.mp hc with hc | hc
          · subst hc
            exact closer_self t _
          · have hbr : closer t b r = false := by simpa using hcl
            exact closer_neg_trans (ihb c hc hcw) hbr
      · simp [hw] at h
        subst h
        rcases List.mem_cons.mp hc with hc | hc
        · subst hc
          exact absurd hcw (by simpa using hw)
        · exact ihb c hc hcw

/-- C3: whenever at least one candidate lies inside the tolerance window
around a reference timestamp, the nearest-neighbour lookup of the
TemporalMatcher selects a candidate from the window with minimal absolute
time difference, and an exactly equidistant alternative never has a strictly
earlier timestamp than the selected one; being a pure function of its
inputs, the selection is identical across runs. -/
theorem temporalMatcher_nearest_tie_break (w : Nat) (t : Int) (l : List Record)
    (c0 : Record) (hc0 : c0 ∈ l) (hw0 : withinTol w t c0 = true) :
    ∃ m, nearestWithin w t l = some m ∧ m ∈ l ∧ withinTol w t m = true ∧
      ∀ c ∈ l, withinTol w t c = true →
        (m.t - t).natAbs < (c.t - t).natAbs ∨
          ((m.t - t).natAbs = (c.t - t).natAbs ∧ m.t ≤ c.t) := by
  have hs := nearestWithin_isSome w t l c0 hc0 hw0
  obtain ⟨m, hm⟩ := Option.isSome_iff_exists.mp hs
  refine ⟨m, hm, (nearestWithin_mem_within w t l m hm).1,
    (nearestWithin_mem_within w t l m hm).2, ?_⟩
  intro c hc hcw
  have hnb := nearestWithin_not_beaten w t l m hm c hc hcw
  simp only [closer, Bool.or_eq_false_iff, Bool.and_eq_false_iff,
    decide_eq_false_iff_not, not_lt] at hnb
  omega

theorem temporalMatcher_nearest_tie_break_witness :
    (∃ m, nearestWithin 2 0 [⟨-1, 5, .valid⟩, ⟨1, 7, .valid⟩] = some m ∧
      m ∈ [⟨-1, 5, .valid⟩, ⟨1, 7, .valid⟩] ∧ withinTol 2 0 m = true ∧
      ∀ c ∈ [Record.mk (-1) 5 .valid, ⟨1, 7, .valid⟩], withinTol 2 0 c = true →
        (m.t - 0).natAbs < (c.t - 0).natAbs ∨
          ((m.t - 0).natAbs = (c.t - 0).natAbs ∧ m.t ≤ c.t)) ∧
    nearestWithin 2 0 [⟨-1, 5, .valid⟩, ⟨1, 7, .valid⟩] = some ⟨-1, 5, .valid⟩ :=
  ⟨temporalMatcher_nearest_tie_break 2 0 [⟨-1, 5, .valid⟩, ⟨1, 7, .valid⟩]
      ⟨-1, 5, .valid⟩ (by decide) (by decide), by decide⟩

/-- C4: the MatchedTable has exactly one row per reference timestamp, in
order; a reference timestamp whose nearest-neighbour lookup in some
non-reference series finds no record within tolerance still has its row,
with a null value for that source — the row is never dropped. -/
theorem matcher_never_drops_rows (w : Nat) (ref : List Record)
    (others : List (List Record)) :
    (buildTable w ref others).rows.length = ref.length ∧
    ∀ i r, ref.get? i = some r →
      ∃ row, (buildTable w ref others).rows.get? i = some row ∧
        row.refT = r.t ∧ row.refV = r.v ∧ row.others.length = others.length ∧
        ∀ j s, others.get? j = some s → nearestWithin w r.t s = none →
          row.others.get? j = some none := by
  constructor
  · simp [buildTable]
  · intro i r hr
    refine ⟨⟨r.t, r.v, others.map fun s => (nearestWithin w r.t s).map (·.v)⟩,
      ?_, rfl, rfl, by simp, ?_⟩
    · simp only [buildTable, List.get?_eq_getElem?, List.getElem?_map]
      rw [List.get?_eq_getElem?] at hr
      simp [hr]
    · intro j s hs hn
      rw [List.get?_eq_getElem?] at hs ⊢
      simp [List.getElem?_map, hs, hn]

theorem matcher_never_drops_rows_witness :
    ∃ row,
      (buildTable 0 [⟨0, 1, .valid⟩] [[⟨100, 2, .valid⟩]]).rows.get? 0 = some row ∧
      row.refT = 0 ∧ row.others.get? 0 = some none := by
  obtain ⟨row, h1, h2, h3, h4, h5⟩ :=
    (matcher_never_drops_rows 0 [⟨0, 1, .valid⟩] [[⟨100, 2, .valid⟩]]).2 0
      ⟨0, 1, .valid⟩ rfl
  exact ⟨row, h1, h2, h5 0 [⟨100, 2, .valid⟩] rfl (by decide)⟩

/-- C5: the TemporalMatcher fails with `EmptyOverlapError` exactly when the
match produces zero records; when at least one record is produced it returns
the MatchedTable, and `EmptyOverlapError` is the only error it ever
returns. -/
theorem temporalMatch_empty_overlap_iff (w : Nat) (ref : List Record)
    (others : List (List Record)) :
    (temporalMatch w ref others = .error .emptyOverlap ↔
      (buildTable w ref others).rows = []) ∧
    ((buildTable w ref others).rows ≠ [] →
      temporalMatch w ref others = .ok (buildTable w ref others)) ∧
    ∀ e, temporalMatch w ref others = .error e → e = .emptyOverlap := by
  by_cases h : (buildTable w ref others).rows.isEmpty
  · have hnil : (buildTable w ref others).rows = [] := by
      simpa [List.isEmpty_iff] using h
    refine ⟨by simp [temporalMatch, h, hnil], fun hne => absurd hnil hne,
      fun e he => ?_⟩
    simp only [temporalMatch, h, if_true] at he
    exact (Except.error.inj he).symm
  · have hne : (buildTable w ref others).rows ≠ [] := by
      simpa [List.isEmpty_iff] using h
    refine ⟨by simp [temporalMatch, h, hne], fun _ => by simp [temporalMatch, h],
      fun e he => ?_⟩
    simp [temporalMatch, h] at he

theorem temporalMatch_empty_overlap_witness :
    temporalMatch 1 [] [[⟨0, 3, .valid⟩]] = .error .emptyOverlap ∧
    temporalMatch 1 [⟨0, 3, .valid⟩] [[⟨0, 4, .valid⟩]] =
      .ok (buildTable 1 [⟨0, 3, .valid⟩] [[⟨0, 4, .valid⟩]]) :=
  ⟨(temporalMatch_empty_overlap_iff 1 [] [[⟨0, 3, .valid⟩]]).1.mpr rfl,
   (temporalMatch_empty_overlap_iff 1 [⟨0, 3, .valid⟩] [[⟨0, 4, .valid⟩]]).2.1
      (by decide)⟩

theorem map_fst_self (vs : List Rat) :
    ((vs.map fun v => (v, v)).map fun p : Rat × Rat => p.1) = vs := by
  induction vs with
  | nil => rfl
  | cons v vs ih => simp only [List.map_cons, ih]

theorem map_snd_self (vs : List Rat) :
    ((vs.map fun v => (v, v)).map fun p : Rat × Rat => p.2) = vs := by
  induction vs with
  | nil => rfl
  | cons v vs ih => simp only [List.map_cons, ih]

theorem map_mul_self (vs : List Rat) :
    ((vs.map fun v => (v, v)).map fun p : Rat × Rat => p.1 * p.2) =
      vs.map fun v => v * v := by
  induction vs with
  | nil => rfl
  | cons v vs ih => simp only [List.map_cons, ih]

theorem covariance_self (vs : List Rat) :
    covariance (vs.map fun v => (v, v)) = variance vs := by
  rw [covariance, map_mul_self, map_fst_self, map_snd_self, variance]

theorem fitScaler_linear_self (minN : Nat) (vs : List Rat)
    (hn : ¬ (vs.map fun v => (v, v)).length < minN)
    (hv : variance vs ≠ 0) :
    fitScaler .linearRegression minN (vs.map fun v => (v, v)) =
      .ok (.linear ⟨1, 0⟩) := by
  rw [fitScaler, if_neg hn, if_neg (by rw [map_snd_self]; exact hv)]
  simp only [fitCoeffs, covariance_self, map_fst_self, map_snd_self,
    div_self hv, one_mul, sub_self]

/-- C7: every Scaler fitting method fails with `InsufficientDataError` when
fewer than the minimum count of paired non-null samples are available in the
MatchedTable, and with `DegenerateInputError` when the reference series of
the pairs has zero variance; in both cases no fitted ScalingModel is ever
returned. -/
theorem scaler_fit_guards (method : ScalingMethod) (minN : Nat)
    (t : MatchedTable) (j : Nat) :
    ((pairedSamples t j).length < minN →
      fitScaler method minN (pairedSamples t j) = .error .insufficientData) ∧
    (minN ≤ (pairedSamples t j).length →
      variance ((pairedSamples t j).map fun p => p.2) = 0 →
      fitScaler method minN (pairedSamples t j) = .error .degenerateInput) ∧
    ∀ m, fitScaler method minN (pairedSamples t j) = .ok m →
      minN ≤ (pairedSamples t j).length ∧
      variance ((pairedSamples t j).map fun p => p.2) ≠ 0 := by
  refine ⟨fun h => by rw [fitScaler, if_pos h], fun h1 h2 => ?_, fun m hm => ?_⟩
  · rw [fitScaler, if_neg (Nat.not_lt.mpr h1), if_pos h2]
  · rw [fitScaler] at hm
    split at hm
    · exact absurd hm (by simp)
    · split at hm
      · exact absurd hm (by simp)
      · next h1 h2 => exact ⟨Nat.not_lt.mp h1, h2⟩

theorem scaler_fit_guards_witness :
    fitScaler .linearRegression 10
      (pairedSamples ⟨2, [⟨0, 1, [some 2]⟩]⟩ 0) = .error .insufficientData ∧
    fitScaler .meanStd 2
      (pairedSamples ⟨2, [⟨0, 5, [some 1]⟩, ⟨1, 5, [some 2]⟩]⟩ 0) =
      .error .degenerateInput ∧
    fitScaler .cdfMatch 3
      (pairedSamples ⟨2, [⟨0, 5, [some 1]⟩, ⟨1, 5, [some 2]⟩]⟩ 0) =
      .error .insufficientData :=
  ⟨(scaler_fit_guards .linearRegression 10 ⟨2, [⟨0, 1, [some 2]⟩]⟩ 0).1 (by decide),
   (scaler_fit_guards .meanStd 2 ⟨2, [⟨0, 5, [some 1]⟩, ⟨1, 5, [some 2]⟩]⟩ 0).2.1
      (by decide)
      (by have h : ((pairedSamples ⟨2, [⟨0, 5, [some 1]⟩, ⟨1, 5, [some 2]⟩]⟩ 0).map
            fun p : Rat × Rat => p.2) = [5, 5] := rfl
          rw [h]
          norm_num [variance, mean]),
   (scaler_fit_guards .cdfMatch 3 ⟨2, [⟨0, 5, [some 1]⟩, ⟨1, 5, [some 2]⟩]⟩ 0).1
      (by decide)⟩

/-- C8: fitting the linear-regression Scaler of a series against itself
yields slope exactly 1 and intercept exactly 0, and applying the fitted
model returns every input value unchanged, with null values passed through
unchanged; application is a pure function of the immutable fitted model. -/
theorem linear_scaler_self_identity (minN : Nat) (vs : List Rat)
    (m : LinearModel)
    (h : fitScaler .linearRegression minN (vs.map fun v => (v, v)) =
      .ok (.linear m)) :
    m.slope = 1 ∧ m.intercept = 0 ∧ (∀ v, applyLinear m v = v) ∧
      applyLinearOpt m none = none := by
  have hguards : ¬ (vs.map fun v => (v, v)).length < minN ∧ variance vs ≠ 0 := by
    rw [fitScaler] at h
    split at h
    · exact absurd h (by simp)
    · split at h
      · exact absurd h (by simp)
      · next h1 h2 =>
        rw [map_snd_self] at h2
        exact ⟨h1, h2⟩
  rw [fitScaler_linear_self minN vs hguards.1 hguards.2] at h
  have hm : (⟨1, 0⟩ : LinearModel) = m :=
    ScalingModel.linear.inj (Except.ok.inj h)
  subst hm
  refine ⟨rfl, rfl, fun v => ?_, rfl⟩
  simp [applyLinear]

theorem linear_scaler_self_identity_witness :
    fitScaler .linearRegression 3 ([1, 2, 4].map fun v => (v, v)) =
      .ok (.linear ⟨1, 0⟩) ∧
    (⟨1, 0⟩ : LinearModel).slope = 1 ∧ (⟨1, 0⟩ : LinearModel).intercept = 0 ∧
    applyLinear ⟨1, 0⟩ 7 = 7 ∧ applyLinearOpt ⟨1, 0⟩ none = none :=
  have hfit : fitScaler .linearRegression 3 ([1, 2, 4].map fun v => (v, v)) =
      .ok (.linear ⟨1, 0⟩) :=
    fitScaler_linear_self 3 [1, 2, 4] (by decide) (by norm_num [variance, mean])
  ⟨hfit,
   (linear_scaler_self_identity 3 [1, 2, 4] ⟨1, 0⟩ hfit).1,
   (linear_scaler_self_identity 3 [1, 2, 4] ⟨1, 0⟩ hfit).2.1,
   (linear_scaler_self_identity 3 [1, 2, 4] ⟨1, 0⟩ hfit).2.2.1 7,
   (linear_scaler_self_identity 3 [1, 2, 4] ⟨1, 0⟩ hfit).2.2.2⟩

theorem nearestWithin_self (w : Nat) (recs : List Record)
    (hnd : (recs.map fun r => r.t).Nodup) (r : Record) (hr : r ∈ recs) :
    nearestWithin w r.t recs = some r := by
  have hw : withinTol w r.t r = true := by simp [withinTol]
  obtain ⟨m, hm⟩ :=
    Option.isSome_iff_exists.mp (nearestWithin_isSome w r.t recs r hr hw)
  have hmw := nearestWithin_mem_within w r.t recs m hm
  have hnb := nearestWithin_not_beaten w r.t recs m hm r hr hw
  have ht : m.t = r.t := by
    simp only [closer, Bool.or_eq_false_iff, Bool.and_eq_false_iff,
      decide_eq_false_iff_not, not_lt] at hnb
    omega
  rw [hm]
  exact congrArg some (List.inj_on_of_nodup_map hnd hmw.1 hr ht)

theorem buildTable_self (w : Nat) (recs : List Record)
    (hnd : (recs.map fun r => r.t).Nodup) :
    buildTable w recs [recs] =
      ⟨2, recs.map fun r => ⟨r.t, r.v, [some r.v]⟩⟩ := by
  rw [buildTable]
  congr 1
  exact List.map_congr_left fun r hr => by
    simp only [List.map_cons, List.map_nil,
      nearestWithin_self w recs hnd r hr, Option.map_some']

theorem pairedSamples_self (recs : List Record) :
    pairedSamples ⟨2, recs.map fun r => ⟨r.t, r.v, [some r.v]⟩⟩ 0 =
      recs.map fun r => (r.v, r.v) := by
  simp only [pairedSamples]
  induction recs with
  | nil => rfl
  | cons r rest ih =>
    simp only [List.map_cons, List.filterMap_cons, List.getD_cons_zero,
      Option.map_some', ih]

theorem map_pair_comp (recs : List Record) :
    (recs.map fun r => (r.v, r.v)) =
      (recs.map fun r => r.v).map fun v => (v, v) := by
  rw [List.map_map]
  rfl

theorem map_sub_self (vs : List Rat) :
    ((vs.map fun v => (v, v)).map fun p : Rat × Rat => p.1 - p.2) =
      vs.map fun _ => (0 : Rat) := by
  induction vs with
  | nil => rfl
  | cons v vs ih => simp only [List.map_cons, ih, sub_self]

theorem map_sqdiff_self (vs : List Rat) :
    ((vs.map fun v => (v, v)).map
        fun p : Rat × Rat => (p.1 - p.2) * (p.1 - p.2)) =
      vs.map fun _ => (0 : Rat) := by
  induction vs with
  | nil => rfl
  | cons v vs ih => simp only [List.map_cons, ih, sub_self, mul_zero]

theorem mean_map_zero (vs : List Rat) : mean (vs.map fun _ => (0 : Rat)) = 0 := by
  have h : (vs.map fun _ => (0 : Rat)).sum = 0 := by
    induction vs with
    | nil => rfl
    | cons v vs ih => simp only [List.map_cons, List.sum_cons, ih, add_zero]
  rw [mean, h, zero_div]

theorem ratSqrt_zero : Rat.sqrt 0 = 0 := by
  have h := Rat.sqrt_eq 0
  rw [mul_zero, abs_zero] at h
  exact h

theorem bias_self (vs : List Rat) : bias (vs.map fun v => (v, v)) = 0 := by
  rw [bias, map_sub_self, mean_map_zero]

theorem rmsd_self (vs : List Rat) : rmsd (vs.map fun v => (v, v)) = 0 := by
  rw [rmsd, map_sqdiff_self, mean_map_zero, ratSqrt_zero]

theorem pearson_self (vs : List Rat) (hv : 0 < variance vs) :
    pearson (vs.map fun v => (v, v)) = 1 := by
  rw [pearson, map_fst_self, map_snd_self, covariance_self, Rat.sqrt_eq,
    abs_of_pos hv, div_self (ne_of_gt hv)]

theorem pairMetrics_self_eval (w minN : Nat) (recs : List Record)
    (hinc : List.Chain' (· < ·) (recs.map fun r => r.t))
    (hn : minN ≤ recs.length)
    (hv : 0 < variance (recs.map fun r => r.v)) :
    pairMetrics minN (buildTable w recs [recs]) =
      .ok ⟨[("correlation", 1), ("bias", 0), ("rmsd", 0)], recs.length, .ok⟩ := by
  have hnd : (recs.map fun r => r.t).Nodup :=
    (List.chain'_iff_pairwise.mp hinc).imp ne_of_lt
  rw [buildTable_self w recs hnd]
  simp only [pairMetrics, pairedSamples_self, map_pair_comp, List.length_map]
  rw [if_neg (by simp), if_neg (Nat.not_lt.mpr hn),
    pearson_self _ hv, bias_self, rmsd_self]

/-- C9 (amended): for every series with strictly increasing timestamps and
nonzero value variance, matched against itself with at least the minimum
sample count, the MetricsEngine returns Pearson correlation exactly 1, bias
exactly 0 and RMSD exactly 0 (bias is mean(source − reference), RMSD is
sqrt(mean((source − reference)²))). -/
theorem metrics_self_comparison (w minN : Nat) (recs : List Record)
    (hinc : List.Chain' (· < ·) (recs.map fun r => r.t))
    (hn : minN ≤ recs.length)
    (hv : 0 < variance (recs.map fun r => r.v)) :
    pairMetrics minN (buildTable w recs [recs]) =
      .ok ⟨[("correlation", 1), ("bias", 0), ("rmsd", 0)], recs.length, .ok⟩ :=
  pairMetrics_self_eval w minN recs hinc hn hv

theorem metrics_self_comparison_witness :
    pairMetrics 3
      (buildTable 5 [⟨0, 1, .valid⟩, ⟨1, 2, .valid⟩, ⟨2, 4, .valid⟩]
        [[⟨0, 1, .valid⟩, ⟨1, 2, .valid⟩, ⟨2, 4, .valid⟩]]) =
      .ok ⟨[("correlation", 1), ("bias", 0), ("rmsd", 0)], 3, .ok⟩ :=
  metrics_self_comparison 5 3 [⟨0, 1, .valid⟩, ⟨1, 2, .valid⟩, ⟨2, 4, .valid⟩]
    (by rw [← strictlyIncreasingB_iff]; decide) (by decide)
    (by norm_num [variance, mean])

/-- C9 as literally stated fails on a constant series: ten records of value 5
matched against themselves have zero variance, the Pearson denominator is
zero, and the computed correlation is 0, not 1 (in floating point it would be
NaN, likewise not 1); bias and RMSD are still 0. -/
theorem metrics_self_comparison_counterexample :
    pairMetrics 10
      (buildTable 0
        [⟨0, 5, .valid⟩, ⟨1, 5, .valid⟩, ⟨2, 5, .valid⟩, ⟨3, 5, .valid⟩,
         ⟨4, 5, .valid⟩, ⟨5, 5, .valid⟩, ⟨6, 5, .valid⟩, ⟨7, 5, .valid⟩,
         ⟨8, 5, .valid⟩, ⟨9, 5, .valid⟩]
        [[⟨0, 5, .valid⟩, ⟨1, 5, .valid⟩, ⟨2, 5, .valid⟩, ⟨3, 5, .valid⟩,
          ⟨4, 5, .valid⟩, ⟨5, 5, .valid⟩, ⟨6, 5, .valid⟩, ⟨7, 5, .valid⟩,
          ⟨8, 5, .valid⟩, ⟨9, 5, .valid⟩]]) =
      .ok ⟨[("correlation", 0), ("bias", 0), ("rmsd", 0)], 10, .ok⟩ ∧
    (0 : Rat) ≠ 1 := by
  constructor
  · rw [buildTable_self _ _ (by decide)]
    simp only [pairMetrics, pairedSamples_self, map_pair_comp, List.length_map]
    rw [if_neg (by simp), if_neg (by decide)]
    have hv0 : variance
        (([⟨0, 5, .valid⟩, ⟨1, 5, .valid⟩, ⟨2, 5, .valid⟩, ⟨3, 5, .valid⟩,
           ⟨4, 5, .valid⟩, ⟨5, 5, .valid⟩, ⟨6, 5, .valid⟩, ⟨7, 5, .valid⟩,
           ⟨8, 5, .valid⟩, ⟨9, 5, .valid⟩] : List Record).map fun r => r.v) =
        0 := by
      norm_num [variance, mean]
    rw [pearson, map_fst_self, map_snd_self, covariance_self, hv0, mul_zero,
      ratSqrt_zero, div_zero, bias_self, rmsd_self]
    rfl
  · norm_num

/-- C6: triple collocation requires exactly three sources and at least the
minimum count of complete rows, failing with `InsufficientDataError`
otherwise; when it runs, it returns a MetricResult (never an error) whose
status is `degenerate` exactly when some computed error variance is
negative. -/
theorem triple_collocation_guards (minN : Nat) (t : MatchedTable) :
    (t.nSources ≠ 3 → tripleCollocation minN t = .error .insufficientData) ∧
    ((completeTriples t).length < minN →
      tripleCollocation minN t = .error .insufficientData) ∧
    (t.nSources = 3 → minN ≤ (completeTriples t).length →
      ∃ r, tripleCollocation minN t = .ok r ∧
        r.nSamples = (completeTriples t).length ∧
        (r.status = .degenerate ↔
          ((tcErrVars (completeTriples t)).1 < 0 ∨
            (tcErrVars (completeTriples t)).2.1 < 0 ∨
            (tcErrVars (completeTriples t)).2.2 < 0))) := by
  refine ⟨fun h => ?_, fun h => ?_, fun h3 hn => ?_⟩
  · rw [tripleCollocation, if_pos h]
  · rw [tripleCollocation]
    by_cases h3 : t.nSources ≠ 3
    · rw [if_pos h3]
    · rw [if_neg h3, if_pos h]
  · rw [tripleCollocation, if_neg (by simp [h3]), if_neg (Nat.not_lt.mpr hn)]
    refine ⟨_, rfl, rfl, ?_⟩
    by_cases hd : ((tcErrVars (completeTriples t)).1 < 0 ∨
        (tcErrVars (completeTriples t)).2.1 < 0 ∨
        (tcErrVars (completeTriples t)).2.2 < 0)
    · simp [hd]
    · simp [hd]

theorem triple_collocation_guards_witness :
    (∃ r, tripleCollocation 4
        ⟨3, [⟨0, 0, [some 0, some 0]⟩, ⟨1, 1, [some 1, some 1]⟩,
             ⟨2, 2, [some 2, some 3]⟩, ⟨3, 3, [some 10, some 2]⟩]⟩ = .ok r ∧
      r.nSamples = 4 ∧ r.status = .degenerate) ∧
    tripleCollocation 4 ⟨2, [⟨0, 0, [some 0]⟩]⟩ = .error .insufficientData ∧
    tripleCollocation 4 ⟨3, [⟨0, 0, [some 0, some 0]⟩]⟩ =
      .error .insufficientData := by
  refine ⟨?_, ?_, ?_⟩
  · obtain ⟨r, h1, h2, h3⟩ :=
      (triple_collocation_guards 4
        ⟨3, [⟨0, 0, [some 0, some 0]⟩, ⟨1, 1, [some 1, some 1]⟩,
             ⟨2, 2, [some 2, some 3]⟩, ⟨3, 3, [some 10, some 2]⟩]⟩).2.2
        rfl (by decide)
    refine ⟨r, h1, h2, h3.mpr (Or.inl ?_)⟩
    have hct : completeTriples
        ⟨3, [⟨0, 0, [some 0, some 0]⟩, ⟨1, 1, [some 1, some 1]⟩,
             ⟨2, 2, [some 2, some 3]⟩, ⟨3, 3, [some 10, some 2]⟩]⟩ =
        [(0, 0, 0), (1, 1, 1), (2, 2, 3), (3, 10, 2)] := rfl
    rw [hct]
    norm_num [tcErrVars, covariance, variance, mean, List.zip_cons_cons]
  · exact (triple_collocation_guards 4 ⟨2, [⟨0, 0, [some 0]⟩]⟩).1 (by decide)
  · exact (triple_collocation_guards 4 ⟨3, [⟨0, 0, [some 0, some 0]⟩]⟩).2.1
      (by decide)

theorem temporalMatch_error_eq (w : Nat) (ref : List Record)
    (others : List (List Record)) (e : VError)
    (h : temporalMatch w ref others = .error e) : e = .emptyOverlap := by
  simp only [temporalMatch] at h
  split at h
  · exact (Except.error.inj h).symm
  · exact absurd h (by simp)

theorem fitScaler_error (method : ScalingMethod) (minN : Nat)
    (ps : List (Rat × Rat)) (e : VError)
    (h : fitScaler method minN ps = .error e) :
    e = .insufficientData ∨ e = .degenerateInput := by
  rw [fitScaler] at h
  split at h
  · exact Or.inl (Except.error.inj h).symm
  · split at h
    · exact Or.inr (Except.error.inj h).symm
    · exact absurd h (by simp)

theorem scaleColumn_error (minN : Nat) (t : MatchedTable) (j : Nat) (e : VError)
    (h : scaleColumn minN t j = .error e) :
    e = .insufficientData ∨ e = .degenerateInput := by
  cases heq : fitScaler .linearRegression minN (pairedSamples t j) with
  | error e1 =>
    simp only [scaleColumn, heq] at h
    exact (Except.error.inj h) ▸ fitScaler_error _ _ _ _ heq
  | ok m =>
    cases m with
    | linear lm => simp [scaleColumn, heq] at h
    | meanStd a b c d => simp [scaleColumn, heq] at h
    | cdfMatch tbl => simp [scaleColumn, heq] at h

theorem scaleCols_error (minN : Nat) :
    ∀ (js : List Nat) (t : MatchedTable) (e : VError),
      scaleCols minN js t = .error e →
      e = .insufficientData ∨ e = .degenerateInput
  | [], t, e, h => by simp [scaleCols] at h
  | j :: js, t, e, h => by
    rw [scaleCols] at h
    cases heq : scaleColumn minN t j with
    | error e1 =>
      rw [heq] at h
      exact (Except.error.inj h) ▸ scaleColumn_error minN t j e1 heq
    | ok t1 =>
      rw [heq] at h
      exact scaleCols_error minN js t1 e h

theorem scaleAll_error (minN : Nat) (t : MatchedTable) (e : VError)
    (h : scaleAll minN t = .error e) :
    e = .insufficientData ∨ e = .degenerateInput := by
  rw [scaleAll] at h
  exact scaleCols_error minN _ t e h

theorem pairMetrics_error (minN : Nat) (t : MatchedTable) (e : VError)
    (h : pairMetrics minN t = .error e) : e = .insufficientData := by
  simp only [pairMetrics] at h
  split at h
  · exact (Except.error.inj h).symm
  · split at h
    · exact (Except.error.inj h).symm
    · exact absurd h (by simp)

theorem tripleCollocation_error (minN : Nat) (t : MatchedTable) (e : VError)
    (h : tripleCollocation minN t = .error e) : e = .insufficientData := by
  simp only [tripleCollocation] at h
  split at h
  · exact (Except.error.inj h).symm
  · split at h
    · exact (Except.error.inj h).symm
    · exact absurd h (by simp)

theorem runOne_error (c : Combination) (e : VError) (h : runOne c = .error e) :
    e = .emptyOverlap ∨ e = .insufficientData ∨ e = .degenerateInput := by
  cases hm : temporalMatch c.w c.ref c.others with
  | error e1 =>
    simp only [runOne, hm] at h
    exact Or.inl ((Except.error.inj h) ▸ temporalMatch_error_eq _ _ _ _ hm)
  | ok table =>
    simp only [runOne, hm] at h
    cases hsc : (if c.scaling then scaleAll c.minN table else Except.ok table) with
    | error e2 =>
      simp only [hsc] at h
      have he : e2 = e := Except.error.inj h
      by_cases hb : c.scaling
      · rw [if_pos hb] at hsc
        exact Or.inr (he ▸ scaleAll_error c.minN table e2 hsc)
      · rw [if_neg hb] at hsc
        exact absurd hsc (by simp)
    | ok t2 =>
      simp only [hsc] at h
      split at h
      · exact Or.inr (Or.inl (tripleCollocation_error _ _ _ h))
      · exact Or.inr (Or.inl (pairMetrics_error _ _ _ h))

/-- C1: a ValidationRun maps every combination, in order, to its key paired
with either a MetricResult (when the pipeline succeeds) or a failure record
carrying the reason and the identifying key (when the pipeline fails with
one of the three recoverable errors — the only errors the pipeline can
produce); the run is a total function that never raises, each entry depends
only on its own combination, and splitting the batch splits the report, so
one failing combination never prevents results for the others. -/
theorem validationRun_partial_failure (cs : List Combination) :
    (validationRun cs).length = cs.length ∧
    (∀ i c, cs.get? i = some c →
      (validationRun cs).get? i = some (c.key, runEntry c) ∧
      (∀ e, runOne c = .error e → runEntry c = .inr ⟨c.key, e⟩ ∧
        (e = .emptyOverlap ∨ e = .insufficientData ∨ e = .degenerateInput)) ∧
      ∀ r, runOne c = .ok r → runEntry c = .inl r) ∧
    ∀ xs ys, validationRun (xs ++ ys) = validationRun xs ++ validationRun ys := by
  refine ⟨by simp [validationRun],
    fun i c hc => ⟨?_, fun e he => ⟨?_, runOne_error c e he⟩, fun r hr => ?_⟩,
    fun xs ys => by simp [validationRun]⟩
  · rw [validationRun, List.get?_eq_getElem?, List.getElem?_map]
    rw [List.get?_eq_getElem?] at hc
    simp [hc]
  · rw [runEntry, he]
  · rw [runEntry, hr]

theorem validationRun_partial_failure_witness :
    validationRun
      [⟨"A", 0, [⟨0, 1, .valid⟩, ⟨1, 2, .valid⟩],
        [[⟨0, 1, .valid⟩, ⟨1, 2, .valid⟩]], false, 2⟩,
       ⟨"B", 0, [⟨0, 1, .valid⟩], [[⟨100, 1, .valid⟩]], false, 2⟩] =
      [("A", .inl ⟨[("correlation", 1), ("bias", 0), ("rmsd", 0)], 2, .ok⟩),
       ("B", .inr ⟨"B", .insufficientData⟩)] := by
  have hA : runOne ⟨"A", 0, [⟨0, 1, .valid⟩, ⟨1, 2, .valid⟩],
      [[⟨0, 1, .valid⟩, ⟨1, 2, .valid⟩]], false, 2⟩ =
      .ok ⟨[("correlation", 1), ("bias", 0), ("rmsd", 0)], 2, .ok⟩ := by
    have hstep : runOne ⟨"A", 0, [⟨0, 1, .valid⟩, ⟨1, 2, .valid⟩],
        [[⟨0, 1, .valid⟩, ⟨1, 2, .valid⟩]], false, 2⟩ =
        pairMetrics 2 (buildTable 0 [⟨0, 1, .valid⟩, ⟨1, 2, .valid⟩]
          [[⟨0, 1, .valid⟩, ⟨1, 2, .valid⟩]]) := rfl
    rw [hstep, pairMetrics_self_eval 0 2 [⟨0, 1, .valid⟩, ⟨1, 2, .valid⟩]
      (by rw [← strictlyIncreasingB_iff]; decide) (by decide)
      (by norm_num [variance, mean])]
    rfl
  have hB : runOne ⟨"B", 0, [⟨0, 1, .valid⟩], [[⟨100, 1, .valid⟩]], false, 2⟩ =
      .error .insufficientData := rfl
  have hmain := validationRun_partial_failure
    [⟨"A", 0, [⟨0, 1, .valid⟩, ⟨1, 2, .valid⟩],
      [[⟨0, 1, .valid⟩, ⟨1, 2, .valid⟩]], false, 2⟩,
     ⟨"B", 0, [⟨0, 1, .valid⟩], [[⟨100, 1, .valid⟩]], false, 2⟩]
  have hEA := ((hmain.2.1 0 _ rfl).2.2) _ hA
  have hEB := ((hmain.2.1 1 _ rfl).2.1) _ hB
  have hlist : validationRun
      [⟨"A", 0, [⟨0, 1, .valid⟩, ⟨1, 2, .valid⟩],
        [[⟨0, 1, .valid⟩, ⟨1, 2, .valid⟩]], false, 2⟩,
       ⟨"B", 0, [⟨0, 1, .valid⟩], [[⟨100, 1, .valid⟩]], false, 2⟩] =
      [("A", runEntry ⟨"A", 0, [⟨0, 1, .valid⟩, ⟨1, 2, .valid⟩],
        [[⟨0, 1, .valid⟩, ⟨1, 2, .valid⟩]], false, 2⟩),
       ("B", runEntry ⟨"B", 0, [⟨0, 1, .valid⟩], [[⟨100, 1, .valid⟩]],
        false, 2⟩)] := rfl
  rw [hlist, hEA, hEB.1]

end Pytesmo
